import Mathlib

/-!
Verification development for `sharepoint_extractor_python.py`
(OneDriveGraphMetaDataExtractor).

Machine strings are modelled as lists of characters (`Str`), remote JSON
dictionaries as structures with `Option` fields for optional keys, and the
remote Microsoft Graph service as explicit world/oracle values passed to the
embedded functions.  Fallible code returns `Option`/`Except`.
-/

/-- Strings of the Python program, modelled as lists of characters. -/
abbrev Str := List Char

/-! ## Model of the `re.search` patterns used by `parse_sharepoint_url`

The source uses four patterns, all of the shape "literal text, then a captured
run of characters": `https://([^/]+)`, `/personal/([^/]+)`, `/sites/([^/]+)`,
`/Documents/(.+)`, plus `/personal/[^/]+/(.+)` and a plain substring test
`'/Documents' in url`.  `searchCapture pat keep s` scans `s` left to right for
the leftmost position where `pat` occurs followed by a nonempty run of
characters satisfying `keep`, and returns that (greedy) run, exactly as
`re.search` does for these patterns (`[^/]+` keeps non-slash characters, `.+`
keeps non-newline characters). -/

def searchCapture (pat : Str) (keep : Char → Bool) : Str → Option Str
  | [] => none
  | c :: rest =>
    if pat.isPrefixOf (c :: rest) then
      let cap := ((c :: rest).drop pat.length).takeWhile keep
      if cap.isEmpty then searchCapture pat keep rest else some cap
    else searchCapture pat keep rest

/-- Substring test, modelling Python's `pat in s`. -/
def containsSub (pat : Str) : Str → Bool
  | [] => pat.isEmpty
  | c :: rest => pat.isPrefixOf (c :: rest) || containsSub pat rest

/-- Model of `re.search(r'/personal/[^/]+/(.+)', url)`: leftmost occurrence of
`/personal/`, a nonempty slash-free user segment, a slash, then a nonempty
captured run of non-newline characters. -/
def searchPersonalPath : Str → Option Str
  | [] => none
  | c :: rest =>
    if ("/personal/".data).isPrefixOf (c :: rest) then
      let after := (c :: rest).drop 10
      let user := after.takeWhile (fun x => x != '/')
      if user.isEmpty then searchPersonalPath rest
      else
        match after.drop user.length with
        | '/' :: tail =>
          let cap := tail.takeWhile (fun x => x != '\n')
          if cap.isEmpty then searchPersonalPath rest else some cap
        | _ => searchPersonalPath rest
    else searchPersonalPath rest

/-- Hex digit value, as used by `urllib.parse.unquote`. -/
def hexDigit (c : Char) : Option Nat :=
  if '0' ≤ c ∧ c ≤ '9' then some (c.toNat - '0'.toNat)
  else if 'a' ≤ c ∧ c ≤ 'f' then some (c.toNat - 'a'.toNat + 10)
  else if 'A' ≤ c ∧ c ≤ 'F' then some (c.toNat - 'A'.toNat + 10)
  else none

/-- Byte-level model of `urllib.parse.unquote`: each valid `%XX` escape becomes
the character with that code, malformed escapes are kept literally.  (Multi-byte
UTF-8 escape sequences are modelled as individual code points.) -/
def unquote : Str → Str
  | '%' :: a :: b :: rest =>
    match hexDigit a, hexDigit b with
    | some x, some y => Char.ofNat (16 * x + y) :: unquote rest
    | _, _ => '%' :: unquote (a :: b :: rest)
  | c :: rest => c :: unquote rest
  | [] => []

/-! ## `parse_sharepoint_url` (source lines 107-160) -/

/-- Model of `url.split('?')[0]`: everything before the first `'?'`. -/
def stripQuery (s : Str) : Str := s.takeWhile (fun c => c != '?')

/-- Model of `str.rstrip('/')`: drop every trailing slash. -/
def rstripSlash (s : Str) : Str := (s.reverse.dropWhile (fun c => c == '/')).reverse

/-- The URL cleaning step `url.split('?')[0].rstrip('/')` of line 123. -/
def cleanUrl (s : Str) : Str := rstripSlash (stripQuery s)

/-- The dictionary returned by `parse_sharepoint_url`. -/
structure UrlInfo where
  tenant_domain : Str
  site_path : Str
  document_path : Str
  is_personal_site : Bool
deriving DecidableEq

/-- Embedding of `SharePointExtractor.parse_sharepoint_url` (lines 107-160). -/
def parse_sharepoint_url (url : Str) : UrlInfo :=
  if url.isEmpty then ⟨[], [], [], false⟩
  else
    let u := cleanUrl url
    let tenant := (searchCapture ("https://".data) (fun c => c != '/') u).getD []
    match searchCapture ("/personal/".data) (fun c => c != '/') u with
    | some user =>
      let dp :=
        match searchCapture ("/Documents/".data) (fun c => c != '\n') u with
        | some d => unquote d
        | none =>
          if containsSub ("/Documents".data) u then []
          else
            match searchPersonalPath u with
            | some d => unquote d
            | none => []
      ⟨tenant, "/personal/".data ++ user, dp, true⟩
    | none =>
      let sp :=
        match searchCapture ("/sites/".data) (fun c => c != '/') u with
        | some s => "/sites/".data ++ s
        | none => []
      let dp :=
        match searchCapture ("/Documents/".data) (fun c => c != '\n') u with
        | some d => unquote d
        | none =>
          if containsSub ("/Documents".data) u then [] else []
      ⟨tenant, sp, dp, false⟩

/-! ## The remote drive tree and `scan_folder_contents` (lines 303-354)

A remote item is modelled as a node carrying the metadata fields the scanner
reads from the Graph JSON (`Option` for keys that may be absent), an
`isFolder` flag (`'folder' in child`), an `ok` flag telling whether the
children-listing request for this item succeeds with a `value` field
(lines 309-312: a failed or `value`-less listing yields no items), and the
listed children in the order the remote API returns them. -/

structure Meta where
  name : Str
  id : Str
  created : Option Str
  modified : Option Str
  createdBy : Option Str
  modifiedBy : Option Str
  size : Option Nat
deriving DecidableEq

inductive RNode where
  | node (meta : Meta) (isFolder : Bool) (ok : Bool) (children : List RNode)

/-- The running counters of the extractor instance (lines 22-24). -/
structure Counters where
  total_items : Nat
  files_count : Nat
  folders_count : Nat
deriving DecidableEq

/-- Round-half-to-even on rationals, the rounding used by Python's `round`. -/
def roundHalfEven (q : ℚ) : ℤ :=
  if q - ⌊q⌋ < 1 / 2 then ⌊q⌋
  else if 1 / 2 < q - ⌊q⌋ then ⌊q⌋ + 1
  else if ⌊q⌋ % 2 = 0 then ⌊q⌋ else ⌊q⌋ + 1

/-- `round(x, 2)`: round to two decimal places, ties to even. -/
def round2 (q : ℚ) : ℚ := (roundHalfEven (100 * q) : ℚ) / 100

/-- Line 334: `round(child.get('size', 0) / 1024, 2) if child.get('size') else 0`.
An absent or zero (falsy) size yields exactly `0`. -/
def size_kb (size : Option Nat) : ℚ :=
  match size with
  | none => 0
  | some s => if s = 0 then 0 else round2 ((s : ℚ) / 1024)

/-- The `item_info` dictionary built on lines 326-336. -/
structure ItemRecord where
  Name : Str
  «Type» : Str
  Path : Str
  Created : Str
  Modified : Str
  CreatedBy : Str
  ModifiedBy : Str
  Size_KB : ℚ
  IsFolder : Bool
deriving DecidableEq

/-- Builds the metadata record for one child (lines 318-336). -/
def mkRecord (m : Meta) (isFolder : Bool) (item_path : Str) : ItemRecord :=
  { Name := m.name
    «Type» := if isFolder then "Folder".data else "File".data
    Path := item_path
    Created := m.created.getD []
    Modified := m.modified.getD []
    CreatedBy := m.createdBy.getD ("Unknown".data)
    ModifiedBy := m.modifiedBy.getD ("Unknown".data)
    Size_KB := size_kb m.size
    IsFolder := isFolder }

/-- The loop of `scan_folder_contents` over a children listing
(lines 317-349), threading the instance counters.  The recursive call
`scan_folder_contents(drive_id, child['id'], item_path)` is inlined: a child
folder whose own listing fails (`ok = false`) contributes no sub-items
(lines 310-312). -/
def scanList : List RNode → Str → Counters → List ItemRecord × Counters
  | [], _, st => ([], st)
  | RNode.node m isF ok ch :: rest, current_path, st =>
    let item_path := if current_path.isEmpty then m.name else current_path ++ '/' :: m.name
    let r := mkRecord m isF item_path
    let st1 : Counters := { st with total_items := st.total_items + 1 }
    if isF then
      let st2 : Counters := { st1 with folders_count := st1.folders_count + 1 }
      let sub := if ok then scanList ch item_path st2 else ([], st2)
      let tail := scanList rest current_path sub.2
      (r :: (sub.1 ++ tail.1), tail.2)
    else
      let st2 : Counters := { st1 with files_count := st1.files_count + 1 }
      let tail := scanList rest current_path st2
      (r :: tail.1, tail.2)

/-- Embedding of `SharePointExtractor.scan_folder_contents` (lines 303-354)
called on a folder: if the children listing fails or lacks `value`, the
accumulated (empty) list is returned; otherwise each listed child is
processed in order. -/
def scan_folder_contents : RNode → Str → Counters → List ItemRecord × Counters
  | RNode.node _ _ ok ch, current_path, st =>
    if ok then scanList ch current_path st else ([], st)

/-- Modelled from the spec: the depth-first pre-order sequence of records
(§4.4): each folder's record comes first, then the records of its scanned
descendants, then its later siblings, siblings in listing order. -/
def preorderRecords : List RNode → Str → List ItemRecord
  | [], _ => []
  | RNode.node m isF ok ch :: rest, current_path =>
    let item_path := if current_path.isEmpty then m.name else current_path ++ '/' :: m.name
    mkRecord m isF item_path ::
      ((if isF then (if ok then preorderRecords ch item_path else []) else []) ++
        preorderRecords rest current_path)

/-- Number of items the scanner visits (folders with a failed listing hide
their descendants). -/
def vItems : List RNode → Nat
  | [] => 0
  | RNode.node _ isF ok ch :: rest =>
    1 + (if isF then (if ok then vItems ch else 0) else 0) + vItems rest

/-- Number of files the scanner visits. -/
def vFiles : List RNode → Nat
  | [] => 0
  | RNode.node _ isF ok ch :: rest =>
    (if isF then (if ok then vFiles ch else 0) else 1) + vFiles rest

/-- Number of folders the scanner visits. -/
def vFolders : List RNode → Nat
  | [] => 0
  | RNode.node _ isF ok ch :: rest =>
    (if isF then 1 + (if ok then vFolders ch else 0) else 0) + vFolders rest

/-- Total number of items in a remote tree. -/
def countItems : List RNode → Nat
  | [] => 0
  | RNode.node _ isF _ ch :: rest =>
    1 + (if isF then countItems ch else 0) + countItems rest

/-- Number of files in a remote tree. -/
def countFiles : List RNode → Nat
  | [] => 0
  | RNode.node _ isF _ ch :: rest =>
    (if isF then countFiles ch else 1) + countFiles rest

/-- Number of folders in a remote tree. -/
def countFolders : List RNode → Nat
  | [] => 0
  | RNode.node _ isF _ ch :: rest =>
    (if isF then 1 + countFolders ch else 0) + countFolders rest

/-- Every children listing of (the folders of) a tree succeeds: a "full
scan" reaches every item. -/
def allOkL : List RNode → Bool
  | [] => true
  | RNode.node _ isF ok ch :: rest =>
    (if isF then ok && allOkL ch else true) && allOkL rest

/-! ## `find_target_folder` and `navigate_path_segments` (lines 248-301)

The remote drive is modelled by two oracles: `direct` answers the
direct-path-addressing requests `GET /drives/{id}/items/{template}` (the
argument is the `{template}` part, e.g. `root:/{path}:`), and `listChildren`
answers `GET /drives/{id}/items/{itemId}/children` with the children of the
item with the given id (`none` models a failed request or a response without
a `value` field).  The single `drive_id` of a run is folded into the world. -/

structure ChildEntry where
  name : Str
  id : Str
  isFolder : Bool
deriving DecidableEq

structure NavWorld where
  direct : Str → Option Str
  listChildren : Str → Option (List ChildEntry)

/-- `str.lower()`, applied characterwise. -/
def lowerStr (s : Str) : Str := s.map Char.toLower

/-- Line 289: `child['name'].lower() == segment.lower() and 'folder' in child`. -/
def segMatch (seg : Str) (c : ChildEntry) : Bool :=
  (lowerStr c.name == lowerStr seg) && c.isFolder

/-- Line 296: the names of the folder children, reported when a segment is
not found. -/
def availableFolders (cs : List ChildEntry) : List Str :=
  (cs.filter (fun c => c.isFolder)).map (fun c => c.name)

/-- The two failure modes of `navigate_path_segments`, carrying the data the
source logs before returning `None` (lines 283 and 297). -/
inductive NavErr where
  | noAccess (seg : Str)
  | notFound (seg : Str) (available : List Str)

/-- The per-segment loop of `navigate_path_segments` (lines 277-301). -/
def navLoop (w : NavWorld) : List Str → Str → Except NavErr Str
  | [], cur => .ok cur
  | seg :: rest, cur =>
    match w.listChildren cur with
    | none => .error (.noAccess seg)
    | some cs =>
      match cs.find? (segMatch seg) with
      | some c => navLoop w rest c.id
      | none => .error (.notFound seg (availableFolders cs))

/-- `path.split('/')`, Python semantics (`''.split('/') == ['']`). -/
def splitSlash : Str → List Str
  | [] => [[]]
  | '/' :: rest => [] :: splitSlash rest
  | c :: rest =>
    match splitSlash rest with
    | g :: gs => (c :: g) :: gs
    | [] => [[c]]

/-- Line 275: `[seg for seg in path.split('/') if seg.strip()]` — keep the
segments that contain a non-whitespace character. -/
def pathSegments (path : Str) : List Str :=
  (splitSlash path).filter (fun seg => seg.any (fun c => !c.isWhitespace))

/-- Embedding of `SharePointExtractor.navigate_path_segments` (lines 273-301). -/
def navigate_path_segments (w : NavWorld) (current_id : Str) (path : Str) :
    Except NavErr Str :=
  navLoop w (pathSegments path) current_id

/-- Embedding of `SharePointExtractor.find_target_folder` (lines 248-271):
empty path means the root folder; otherwise the two direct path templates are
tried in order, and only then the segment-by-segment navigation. -/
def find_target_folder (w : NavWorld) (path : Str) : Option Str :=
  if path.isEmpty then some ("root".data)
  else
    match w.direct ("root:/".data ++ path ++ ":".data) with
    | some i => some i
    | none =>
      match w.direct ("root:/Documents/".data ++ path ++ ":".data) with
      | some i => some i
      | none => (navigate_path_segments w ("root".data) path).toOption

/-! ## `export_to_csv`, `run` and `main` (lines 356-433, 436-472)

File I/O is abstracted: `export_to_csv` returns the content that would be
written (header row plus one row per record), `none` when nothing is written
(empty item list, line 358-360) or when the write raises (`writeOk = false`,
lines 374-375 — the exception is caught and only logged).  The stages of
`run` that only claims about control flow depend on (site and drive lookup)
are oracles in `RunWorld`; each stage also carries the number of Graph
requests it would make, so that "no remote call happens" is expressible.
Authentication and URL parsing make no Graph requests in the source. -/

/-- The fixed CSV header (lines 366-367). -/
def csvHeader : List Str :=
  ["Name".data, "Type".data, "Path".data, "Created".data, "Modified".data,
    "CreatedBy".data, "ModifiedBy".data, "Size_KB".data, "IsFolder".data]

/-- Embedding of `SharePointExtractor.export_to_csv` (lines 356-375). -/
def export_to_csv (items : List ItemRecord) (writeOk : Bool) :
    Option (List Str × List ItemRecord) :=
  if items.isEmpty then none
  else if writeOk then some (csvHeader, items) else none

/-- The remote world and failure switches a whole `run` sees. -/
structure RunWorld where
  interrupted : Bool
  authOk : Bool
  findSiteR : Str → Str → Option Str
  siteCalls : Nat
  getDriveR : Str → Option Str
  driveCalls : Nat
  nav : NavWorld
  folderCalls : Nat
  itemOf : Str → RNode
  scanCalls : Nat
  exportOk : Bool

/-- Embedding of `SharePointExtractor.run` (lines 377-433): the staged
pipeline.  Every failure is caught by the `except` of line 431 and yields
`[]`; the third component counts the Graph requests made.  `st` is the
instance counter state (`main` constructs a fresh instance). -/
def run (w : RunWorld) (url : Str) (st : Counters) :
    List ItemRecord × Counters × Nat :=
  if !w.authOk then ([], st, 0)
  else
    let info := parse_sharepoint_url url
    if info.tenant_domain.isEmpty then ([], st, 0)
    else
      match w.findSiteR info.tenant_domain info.site_path with
      | none => ([], st, w.siteCalls)
      | some sid =>
        match w.getDriveR sid with
        | none => ([], st, w.siteCalls + w.driveCalls)
        | some _did =>
          match find_target_folder w.nav info.document_path with
          | none => ([], st, w.siteCalls + w.driveCalls + w.folderCalls)
          | some fid =>
            let r := scan_folder_contents (w.itemOf fid) info.document_path st
            let _csv := export_to_csv r.1 w.exportOk
            (r.1, r.2, w.siteCalls + w.driveCalls + w.folderCalls + w.scanCalls)

/-- Embedding of `main` (lines 436-472), named `main_entry` because Lean
reserves `main`: `run` is total (it swallows every exception), so the only
path to exit code 1 is a `KeyboardInterrupt` escaping `run`'s
`except Exception` clause (or an exception outside the extractor); otherwise
`main` returns 0. -/
def main_entry (w : RunWorld) (url : Str) : Nat :=
  if w.interrupted then 1
  else
    let _ := run w url ⟨0, 0, 0⟩
    0

/-! ## Concrete remote worlds used to instantiate the theorems -/

/-- A two-folder remote drive used to instantiate the folder-lookup claim:
direct path addressing always fails, the root folder has one child folder
named `Reports`. -/
def c4World : NavWorld :=
  { direct := fun _ => none
    listChildren := fun i =>
      if i = "root".data then some [⟨"Reports".data, "idR".data, true⟩]
      else some [] }

/-- A remote world in which every pipeline stage succeeds but the CSV write
fails, driving the C6 witness. -/
def c6World : RunWorld :=
  { interrupted := false
    authOk := true
    findSiteR := fun _ _ => some ("sid".data)
    siteCalls := 3
    getDriveR := fun _ => some ("did".data)
    driveCalls := 1
    nav := { direct := fun _ => none, listChildren := fun _ => none }
    folderCalls := 0
    itemOf := fun _ =>
      RNode.node ⟨"r".data, "r".data, none, none, none, none, none⟩ true true []
    scanCalls := 1
    exportOk := false }

/-- A world in which authentication fails and no interrupt occurs. -/
def c1World : RunWorld :=
  { interrupted := false
    authOk := false
    findSiteR := fun _ _ => none
    siteCalls := 0
    getDriveR := fun _ => none
    driveCalls := 0
    nav := { direct := fun _ => none, listChildren := fun _ => none }
    folderCalls := 0
    itemOf := fun _ =>
      RNode.node ⟨[], [], none, none, none, none, none⟩ false false []
    scanCalls := 0
    exportOk := true }

/-- The same world with a keyboard interrupt. -/
def c1WorldInt : RunWorld :=
  { c1World with interrupted := true }

/-! ## Generic list helpers used by the regex-free model of `re.search` -/

/-- `takeWhile` keeps a whole list all of whose elements satisfy the predicate. -/
theorem tw_all {p : Char → Bool} {xs : Str} (h : ∀ c ∈ xs, p c = true) :
    xs.takeWhile p = xs := by
  induction xs with
  | nil => rfl
  | cons c cs ih =>
    rw [List.takeWhile_cons, h c (List.mem_cons_self c cs)]
    exact congrArg (c :: ·) (ih fun d hd => h d (List.mem_cons_of_mem c hd))

/-- `takeWhile` stops exactly at the first failing element. -/
theorem tw_append_stop {p : Char → Bool} {xs : Str} {y : Char} {ys : Str}
    (hx : ∀ c ∈ xs, p c = true) (hy : p y = false) :
    (xs ++ y :: ys).takeWhile p = xs := by
  induction xs with
  | nil => simpa [List.takeWhile_cons] using hy
  | cons c cs ih =>
    rw [List.cons_append, List.takeWhile_cons, hx c (List.mem_cons_self c cs)]
    exact congrArg (c :: ·) (ih fun d hd => hx d (List.mem_cons_of_mem c hd))

/-- `takeWhile` passes through a block all of whose elements satisfy the
predicate. -/
theorem tw_append_all {p : Char → Bool} {xs ys : Str} (hx : ∀ c ∈ xs, p c = true) :
    (xs ++ ys).takeWhile p = xs ++ ys.takeWhile p := by
  induction xs with
  | nil => rfl
  | cons c cs ih =>
    rw [List.cons_append, List.takeWhile_cons, hx c (List.mem_cons_self c cs),
      List.cons_append]
    exact congrArg (c :: ·) (ih fun d hd => hx d (List.mem_cons_of_mem c hd))

/-- Unfolding `List.isPrefixOf` on two cons cells. -/
theorem isPrefixOf_cons_cons (a b : Char) (l₁ l₂ : Str) :
    (a :: l₁).isPrefixOf (b :: l₂) = ((a == b) && l₁.isPrefixOf l₂) := rfl

/-- A list is a Boolean `isPrefixOf` itself followed by anything. -/
theorem isPrefixOf_append (l t : Str) : l.isPrefixOf (l ++ t) = true := by
  induction l with
  | nil => simp [List.isPrefixOf]
  | cons c cs ih => rw [List.cons_append, isPrefixOf_cons_cons, ih]; simp

/-- Boolean `isPrefixOf` yields a concatenation decomposition. -/
theorem isPrefixOf_ex {l₁ l₂ : Str} (h : l₁.isPrefixOf l₂ = true) :
    ∃ t, l₂ = l₁ ++ t := by
  induction l₁ generalizing l₂ with
  | nil => exact ⟨l₂, rfl⟩
  | cons a as ih =>
    cases l₂ with
    | nil => simp [List.isPrefixOf] at h
    | cons b bs =>
      rw [isPrefixOf_cons_cons, Bool.and_eq_true, beq_iff_eq] at h
      obtain ⟨t, ht⟩ := ih h.2
      exact ⟨t, by rw [List.cons_append, ← ht, h.1]⟩

/-- A two-character mismatch refutes Boolean `isPrefixOf`. -/
theorem isPrefixOf_false_of_two (a₀ a₁ : Char) (l : Str) (b₀ b₁ : Char) (m : Str)
    (h : ((a₀ == b₀) && (a₁ == b₁)) = false) :
    (a₀ :: a₁ :: l).isPrefixOf (b₀ :: b₁ :: m) = false := by
  rw [isPrefixOf_cons_cons, isPrefixOf_cons_cons]
  revert h
  cases a₀ == b₀ <;> cases a₁ == b₁ <;> simp

/-- Two slash-free blocks followed by `'/'` agree if the concatenations agree. -/
theorem append_stop_inj {A B r t : Str}
    (hA : ∀ c ∈ A, c ≠ '/') (hB : ∀ c ∈ B, c ≠ '/')
    (h : A ++ '/' :: r = B ++ '/' :: t) : A = B := by
  have h1 : (A ++ '/' :: r).takeWhile (fun c => c != '/') = A :=
    tw_append_stop (fun c hc => by simpa using hA c hc) (by decide)
  have h2 : (B ++ '/' :: t).takeWhile (fun c => c != '/') = B :=
    tw_append_stop (fun c hc => by simpa using hB c hc) (by decide)
  rw [← h1, h, h2]

/-- A pattern of shape `q ++ "/"` cannot start at a slash-free block `T ≠ q`
followed by `'/'`. -/
theorem tail_not_prefix {q T rest : Str}
    (hq : ∀ c ∈ q, c ≠ '/') (hT : ∀ c ∈ T, c ≠ '/') (hne : T ≠ q) :
    (q ++ ['/']).isPrefixOf (T ++ '/' :: rest) = false := by
  cases hX : (q ++ ['/']).isPrefixOf (T ++ '/' :: rest) with
  | false => rfl
  | true =>
    obtain ⟨t, ht⟩ := isPrefixOf_ex hX
    rw [List.append_assoc, List.singleton_append] at ht
    exact absurd (append_stop_inj hT hq ht) hne

/-! ## Evaluation lemmas for `searchCapture` -/

/-- Scanning skips a position where the pattern does not occur. -/
theorem sc_cons_neg {pat : Str} {keep : Char → Bool} {c : Char} {s : Str}
    (h : pat.isPrefixOf (c :: s) = false) :
    searchCapture pat keep (c :: s) = searchCapture pat keep s := by
  simp [searchCapture, h]

/-- Scanning skips a whole block none of whose characters can start the
pattern. -/
theorem sc_append_skip {pat : Str} {keep : Char → Bool} {pc : Char} {pr : Str}
    (hpat : pat = pc :: pr) (xs ys : Str) (hx : ∀ c ∈ xs, c ≠ pc) :
    searchCapture pat keep (xs ++ ys) = searchCapture pat keep ys := by
  induction xs with
  | nil => rfl
  | cons c cs ih =>
    rw [List.cons_append]
    have hne : pat.isPrefixOf (c :: (cs ++ ys)) = false := by
      subst hpat
      rw [isPrefixOf_cons_cons]
      have : (pc == c) = false := by
        simpa [beq_iff_eq] using (hx c (List.mem_cons_self c cs)).symm
      simp [this]
    rw [sc_cons_neg hne]
    exact ih fun d hd => hx d (List.mem_cons_of_mem c hd)

/-- Scanning succeeds at an exact pattern occurrence with nonempty capture. -/
theorem sc_found {pat : Str} {keep : Char → Bool} (rest : Str) (hne : pat ≠ [])
    (hcne : rest.takeWhile keep ≠ []) :
    searchCapture pat keep (pat ++ rest) = some (rest.takeWhile keep) := by
  cases hp : pat with
  | nil => exact absurd hp hne
  | cons p ps =>
    subst hp
    rw [List.cons_append]
    have h1 : (p :: ps).isPrefixOf (p :: (ps ++ rest)) = true := by
      have := isPrefixOf_append (p :: ps) rest
      rwa [List.cons_append] at this
    have h2 : (p :: (ps ++ rest)).drop (p :: ps).length = rest := by
      have := List.drop_left (p :: ps) rest
      rwa [List.cons_append] at this
    simp only [searchCapture, h1, if_true, h2]
    simp [List.isEmpty_iff, hcne]

/-- If the pattern occurs nowhere in the string, scanning finds nothing. -/
theorem sc_none_of_not_contains {pat : Str} {keep : Char → Bool} {s : Str}
    (h : containsSub pat s = false) : searchCapture pat keep s = none := by
  induction s with
  | nil => rfl
  | cons c rest ih =>
    rw [containsSub, Bool.or_eq_false_iff] at h
    rw [sc_cons_neg h.1]
    exact ih h.2

/-- URL cleaning is the identity on a nonempty string without `'?'` that does
not end in `'/'`. -/
theorem clean_eq {s : Str} (hq : ∀ c ∈ s, c ≠ '?') (hne : s ≠ [])
    (hlast : s.getLast? ≠ some '/') : cleanUrl s = s := by
  unfold cleanUrl stripQuery rstripSlash
  rw [tw_all (fun c hc => by simpa using hq c hc)]
  cases hr : s.reverse with
  | nil => exact absurd (by simpa using congrArg List.reverse hr) hne
  | cons c t =>
    have hc : c ≠ '/' := by
      intro hcc
      apply hlast
      rw [← List.head?_reverse, hr, hcc]
      rfl
    have hcb : (c == '/') = false := by simpa [beq_iff_eq] using hc
    have hd : List.dropWhile (fun x => x == '/') (c :: t) = c :: t := by
      rw [List.dropWhile_cons, hcb]
      simp
    rw [hd, ← hr, List.reverse_reverse]

/-- The last element of an append with nonempty right part. -/
theorem getLast?_append_right {A P : Str} (hP : P ≠ []) :
    (A ++ P).getLast? = P.getLast? := by
  rw [← List.head?_reverse, ← List.head?_reverse, List.reverse_append]
  cases hp : P.reverse with
  | nil => exact absurd (by simpa using congrArg List.reverse hp) hP
  | cons c t => rfl

/-! ## Symbolic evaluation of `parse_sharepoint_url` on well-formed URLs -/

/-- Evaluation of the parser on a team-site URL
`https://{T}/sites/{S}/Documents/{P}` whose components avoid the characters
and words that would confuse the source's whole-URL substring searches. -/
theorem parse_team_url (T S P : Str)
    (hT0 : T ≠ []) (hT : ∀ c ∈ T, c ≠ '/' ∧ c ≠ '?')
    (hTs : T ≠ "sites".data) (hTd : T ≠ "Documents".data)
    (hS0 : S ≠ []) (hS : ∀ c ∈ S, c ≠ '/' ∧ c ≠ '?')
    (hSd : S ≠ "Documents".data)
    (hP0 : P ≠ []) (hP : ∀ c ∈ P, c ≠ '?' ∧ c ≠ '\n')
    (hPlast : P.getLast? ≠ some '/')
    (hNoPers : containsSub ("/personal/".data)
      ("https://".data ++ (T ++ ("/sites/".data ++ (S ++ ("/Documents/".data ++ P))))) = false) :
    parse_sharepoint_url
        ("https://".data ++ (T ++ ("/sites/".data ++ (S ++ ("/Documents/".data ++ P)))))
      = ⟨T, "/sites/".data ++ S, unquote P, false⟩ := by
  have hTslash : ∀ c ∈ T, c ≠ '/' := fun c hc => (hT c hc).1
  have hSslash : ∀ c ∈ S, c ≠ '/' := fun c hc => (hS c hc).1
  have hqurl : ∀ c ∈ ("https://".data ++ (T ++ ("/sites/".data ++ (S ++ ("/Documents/".data ++ P))))), c ≠ '?' := by
    intro c hc
    simp only [List.mem_append] at hc
    have l1 : ∀ x ∈ ("https://".data : Str), x ≠ '?' := by decide
    have l2 : ∀ x ∈ ("/sites/".data : Str), x ≠ '?' := by decide
    have l3 : ∀ x ∈ ("/Documents/".data : Str), x ≠ '?' := by decide
    rcases hc with h | h | h | h | h | h
    · exact l1 c h
    · exact (hT c h).2
    · exact l2 c h
    · exact (hS c h).2
    · exact l3 c h
    · exact (hP c h).1
  have hlast : ("https://".data ++ (T ++ ("/sites/".data ++ (S ++ ("/Documents/".data ++ P))))).getLast? ≠ some '/' := by
    have e1 : ("/Documents/".data ++ P).getLast? = P.getLast? := getLast?_append_right hP0
    have n1 : ("/Documents/".data ++ P : Str) ≠ [] := by simp
    have e2 : (S ++ ("/Documents/".data ++ P)).getLast? = P.getLast? :=
      (getLast?_append_right n1).trans e1
    have n2 : (S ++ ("/Documents/".data ++ P) : Str) ≠ [] := by simp [n1]
    have e3 : ("/sites/".data ++ (S ++ ("/Documents/".data ++ P))).getLast? = P.getLast? :=
      (getLast?_append_right n2).trans e2
    have n3 : ("/sites/".data ++ (S ++ ("/Documents/".data ++ P)) : Str) ≠ [] := by simp
    have e4 : (T ++ ("/sites/".data ++ (S ++ ("/Documents/".data ++ P)))).getLast? = P.getLast? :=
      (getLast?_append_right n3).trans e3
    have n4 : (T ++ ("/sites/".data ++ (S ++ ("/Documents/".data ++ P))) : Str) ≠ [] := by simp [n3]
    rw [(getLast?_append_right n4).trans e4]
    exact hPlast
  have hclean : cleanUrl ("https://".data ++ (T ++ ("/sites/".data ++ (S ++ ("/Documents/".data ++ P)))))
      = "https://".data ++ (T ++ ("/sites/".data ++ (S ++ ("/Documents/".data ++ P)))) :=
    clean_eq hqurl (by simp) hlast
  -- the tenant-domain search `https://([^/]+)` captures `T`
  have hcapT : (T ++ ("/sites/".data ++ (S ++ ("/Documents/".data ++ P)))).takeWhile (fun c => c != '/') = T := by
    show (T ++ ('/' :: ("sites/".data ++ (S ++ ("/Documents/".data ++ P))))).takeWhile (fun c => c != '/') = T
    exact tw_append_stop (fun c hc => by simpa using hTslash c hc) (by decide)
  have htenant : searchCapture ("https://".data) (fun c => c != '/')
      ("https://".data ++ (T ++ ("/sites/".data ++ (S ++ ("/Documents/".data ++ P))))) = some T := by
    rw [sc_found _ (by decide) (by rw [hcapT]; exact hT0), hcapT]
  -- the personal-site search finds nothing
  have hpers : searchCapture ("/personal/".data) (fun c => c != '/')
      ("https://".data ++ (T ++ ("/sites/".data ++ (S ++ ("/Documents/".data ++ P))))) = none :=
    sc_none_of_not_contains hNoPers
  -- the team-site search `/sites/([^/]+)` captures `S`
  have hsites : searchCapture ("/sites/".data) (fun c => c != '/')
      ("https://".data ++ (T ++ ("/sites/".data ++ (S ++ ("/Documents/".data ++ P))))) = some S := by
    show searchCapture ("/sites/".data) (fun c => c != '/')
      ("https:".data ++ ('/' :: '/' :: (T ++ ("/sites/".data ++ (S ++ ("/Documents/".data ++ P)))))) = some S
    rw [sc_append_skip rfl "https:".data _ (by decide)]
    rw [sc_cons_neg (by
      rw [show ("/sites/".data : Str) = '/' :: 's' :: "ites/".data from rfl]
      exact isPrefixOf_false_of_two _ _ _ _ _ _ (by decide))]
    rw [sc_cons_neg (by
      rw [show ("/sites/".data : Str) = '/' :: ("sites".data ++ ['/']) from rfl,
          isPrefixOf_cons_cons]
      simp only [beq_self_eq_true, Bool.true_and]
      show ("sites".data ++ ['/']).isPrefixOf
        (T ++ '/' :: ("sites/".data ++ (S ++ ("/Documents/".data ++ P)))) = false
      exact tail_not_prefix (by decide) hTslash hTs)]
    rw [sc_append_skip rfl T _ hTslash]
    have hcapS : (S ++ ("/Documents/".data ++ P)).takeWhile (fun c => c != '/') = S := by
      show (S ++ ('/' :: ("Documents/".data ++ P))).takeWhile (fun c => c != '/') = S
      exact tw_append_stop (fun c hc => by simpa using hSslash c hc) (by decide)
    rw [sc_found _ (by decide) (by rw [hcapS]; exact hS0), hcapS]
  -- the document-path search `/Documents/(.+)` captures `P`
  have hdoc : searchCapture ("/Documents/".data) (fun c => c != '\n')
      ("https://".data ++ (T ++ ("/sites/".data ++ (S ++ ("/Documents/".data ++ P))))) = some P := by
    show searchCapture ("/Documents/".data) (fun c => c != '\n')
      ("https:".data ++ ('/' :: '/' :: (T ++ ("/sites/".data ++ (S ++ ("/Documents/".data ++ P)))))) = some P
    rw [sc_append_skip rfl "https:".data _ (by decide)]
    rw [sc_cons_neg (by
      rw [show ("/Documents/".data : Str) = '/' :: 'D' :: "ocuments/".data from rfl]
      exact isPrefixOf_false_of_two _ _ _ _ _ _ (by decide))]
    rw [sc_cons_neg (by
      rw [show ("/Documents/".data : Str) = '/' :: ("Documents".data ++ ['/']) from rfl,
          isPrefixOf_cons_cons]
      simp only [beq_self_eq_true, Bool.true_and]
      show ("Documents".data ++ ['/']).isPrefixOf
        (T ++ '/' :: ("sites/".data ++ (S ++ ("/Documents/".data ++ P)))) = false
      exact tail_not_prefix (by decide) hTslash hTd)]
    rw [sc_append_skip rfl T _ hTslash]
    show searchCapture ("/Documents/".data) (fun c => c != '\n')
      ('/' :: ('s' :: ("ites".data ++ ('/' :: (S ++ ("/Documents/".data ++ P)))))) = some P
    rw [sc_cons_neg (by
      rw [show ("/Documents/".data : Str) = '/' :: 'D' :: "ocuments/".data from rfl]
      exact isPrefixOf_false_of_two _ _ _ _ _ _ (by decide))]
    rw [sc_cons_neg (by
      rw [show ("/Documents/".data : Str) = '/' :: 'D' :: "ocuments/".data from rfl]
      exact isPrefixOf_false_of_two _ _ _ _ _ _ (by decide))]
    rw [sc_append_skip rfl "ites".data _ (by decide)]
    rw [sc_cons_neg (by
      rw [show ("/Documents/".data : Str) = '/' :: ("Documents".data ++ ['/']) from rfl,
          isPrefixOf_cons_cons]
      simp only [beq_self_eq_true, Bool.true_and]
      show ("Documents".data ++ ['/']).isPrefixOf
        (S ++ '/' :: ("Documents/".data ++ P)) = false
      exact tail_not_prefix (by decide) hSslash hSd)]
    rw [sc_append_skip rfl S _ hSslash]
    have hcapP : P.takeWhile (fun c => c != '\n') = P :=
      tw_all (fun c hc => by simpa using (hP c hc).2)
    rw [sc_found _ (by decide) (by rw [hcapP]; exact hP0), hcapP]
  -- assemble
  unfold parse_sharepoint_url
  rw [if_neg (by simp)]
  simp only [hclean, htenant, hpers, hsites, hdoc, Option.getD_some]

/-- Evaluation of the parser on a personal OneDrive URL
`https://{T}-my.sharepoint.com/personal/{U}/Documents/{Q}`. -/
theorem parse_personal_url (T U Q : Str)
    (hT : ∀ c ∈ T, c ≠ '/' ∧ c ≠ '?')
    (hU0 : U ≠ []) (hU : ∀ c ∈ U, c ≠ '/' ∧ c ≠ '?')
    (hUd : U ≠ "Documents".data)
    (hQ0 : Q ≠ []) (hQ : ∀ c ∈ Q, c ≠ '?' ∧ c ≠ '\n')
    (hQlast : Q.getLast? ≠ some '/') :
    parse_sharepoint_url
        ("https://".data ++ (T ++ ("-my.sharepoint.com".data ++ ("/personal/".data ++ (U ++ ("/Documents/".data ++ Q))))))
      = ⟨T ++ "-my.sharepoint.com".data, "/personal/".data ++ U, unquote Q, true⟩ := by
  have hTslash : ∀ c ∈ T, c ≠ '/' := fun c hc => (hT c hc).1
  have hUslash : ∀ c ∈ U, c ≠ '/' := fun c hc => (hU c hc).1
  have hMy : ∀ c ∈ ("-my.sharepoint.com".data : Str), c ≠ '/' := by decide
  have hTmy : ∀ c ∈ T ++ "-my.sharepoint.com".data, c ≠ '/' := by
    intro c hc
    rcases List.mem_append.mp hc with h | h
    · exact hTslash c h
    · exact hMy c h
  have hqurl : ∀ c ∈ ("https://".data ++ (T ++ ("-my.sharepoint.com".data ++ ("/personal/".data ++ (U ++ ("/Documents/".data ++ Q)))))), c ≠ '?' := by
    intro c hc
    simp only [List.mem_append] at hc
    have l1 : ∀ x ∈ ("https://".data : Str), x ≠ '?' := by decide
    have l2 : ∀ x ∈ ("-my.sharepoint.com".data : Str), x ≠ '?' := by decide
    have l3 : ∀ x ∈ ("/personal/".data : Str), x ≠ '?' := by decide
    have l4 : ∀ x ∈ ("/Documents/".data : Str), x ≠ '?' := by decide
    rcases hc with h | h | h | h | h | h | h
    · exact l1 c h
    · exact (hT c h).2
    · exact l2 c h
    · exact l3 c h
    · exact (hU c h).2
    · exact l4 c h
    · exact (hQ c h).1
  have hlast : ("https://".data ++ (T ++ ("-my.sharepoint.com".data ++ ("/personal/".data ++ (U ++ ("/Documents/".data ++ Q)))))).getLast? ≠ some '/' := by
    have e1 : ("/Documents/".data ++ Q).getLast? = Q.getLast? := getLast?_append_right hQ0
    have n1 : ("/Documents/".data ++ Q : Str) ≠ [] := by simp
    have e2 : (U ++ ("/Documents/".data ++ Q)).getLast? = Q.getLast? :=
      (getLast?_append_right n1).trans e1
    have n2 : (U ++ ("/Documents/".data ++ Q) : Str) ≠ [] := by simp [n1]
    have e3 : ("/personal/".data ++ (U ++ ("/Documents/".data ++ Q))).getLast? = Q.getLast? :=
      (getLast?_append_right n2).trans e2
    have n3 : ("/personal/".data ++ (U ++ ("/Documents/".data ++ Q)) : Str) ≠ [] := by simp
    have e4 : ("-my.sharepoint.com".data ++ ("/personal/".data ++ (U ++ ("/Documents/".data ++ Q)))).getLast? = Q.getLast? :=
      (getLast?_append_right n3).trans e3
    have n4 : ("-my.sharepoint.com".data ++ ("/personal/".data ++ (U ++ ("/Documents/".data ++ Q))) : Str) ≠ [] := by simp
    have e5 : (T ++ ("-my.sharepoint.com".data ++ ("/personal/".data ++ (U ++ ("/Documents/".data ++ Q))))).getLast? = Q.getLast? :=
      (getLast?_append_right n4).trans e4
    have n5 : (T ++ ("-my.sharepoint.com".data ++ ("/personal/".data ++ (U ++ ("/Documents/".data ++ Q)))) : Str) ≠ [] := by simp [n4]
    rw [(getLast?_append_right n5).trans e5]
    exact hQlast
  have hclean : cleanUrl ("https://".data ++ (T ++ ("-my.sharepoint.com".data ++ ("/personal/".data ++ (U ++ ("/Documents/".data ++ Q))))))
      = "https://".data ++ (T ++ ("-my.sharepoint.com".data ++ ("/personal/".data ++ (U ++ ("/Documents/".data ++ Q))))) :=
    clean_eq hqurl (by simp) hlast
  -- the tenant-domain search captures `T ++ "-my.sharepoint.com"`
  have hcapT : (T ++ ("-my.sharepoint.com".data ++ ("/personal/".data ++ (U ++ ("/Documents/".data ++ Q))))).takeWhile (fun c => c != '/')
      = T ++ "-my.sharepoint.com".data := by
    rw [tw_append_all (fun c hc => by simpa using hTslash c hc)]
    show T ++ ("-my.sharepoint.com".data ++ ('/' :: ("personal/".data ++ (U ++ ("/Documents/".data ++ Q))))).takeWhile (fun c => c != '/')
      = T ++ "-my.sharepoint.com".data
    rw [tw_append_stop (fun c hc => by simpa using hMy c hc) (by decide)]
  have htenant : searchCapture ("https://".data) (fun c => c != '/')
      ("https://".data ++ (T ++ ("-my.sharepoint.com".data ++ ("/personal/".data ++ (U ++ ("/Documents/".data ++ Q)))))) = some (T ++ "-my.sharepoint.com".data) := by
    rw [sc_found _ (by decide) (by rw [hcapT]; simp), hcapT]
  -- the personal-site search captures `U`
  have hne8 : T ++ "-my.sharepoint.com".data ≠ "personal".data := by
    intro h
    have := congrArg List.length h
    simp at this
  have hne9 : T ++ "-my.sharepoint.com".data ≠ "Documents".data := by
    intro h
    have := congrArg List.length h
    simp at this
  have hpers : searchCapture ("/personal/".data) (fun c => c != '/')
      ("https://".data ++ (T ++ ("-my.sharepoint.com".data ++ ("/personal/".data ++ (U ++ ("/Documents/".data ++ Q)))))) = some U := by
    show searchCapture ("/personal/".data) (fun c => c != '/')
      ("https:".data ++ ('/' :: '/' :: (T ++ ("-my.sharepoint.com".data ++ ("/personal/".data ++ (U ++ ("/Documents/".data ++ Q))))))) = some U
    rw [sc_append_skip rfl "https:".data _ (by decide)]
    rw [sc_cons_neg (by
      rw [show ("/personal/".data : Str) = '/' :: 'p' :: "ersonal/".data from rfl]
      exact isPrefixOf_false_of_two _ _ _ _ _ _ (by decide))]
    rw [sc_cons_neg (by
      rw [show ("/personal/".data : Str) = '/' :: ("personal".data ++ ['/']) from rfl,
          isPrefixOf_cons_cons]
      simp only [beq_self_eq_true, Bool.true_and]
      show ("personal".data ++ ['/']).isPrefixOf
        (T ++ ("-my.sharepoint.com".data ++ ('/' :: ("personal/".data ++ (U ++ ("/Documents/".data ++ Q)))))) = false
      rw [← List.append_assoc]
      exact tail_not_prefix (by decide) hTmy hne8)]
    rw [sc_append_skip rfl T _ hTslash]
    rw [sc_append_skip rfl "-my.sharepoint.com".data _ hMy]
    have hcapU : (U ++ ("/Documents/".data ++ Q)).takeWhile (fun c => c != '/') = U := by
      show (U ++ ('/' :: ("Documents/".data ++ Q))).takeWhile (fun c => c != '/') = U
      exact tw_append_stop (fun c hc => by simpa using hUslash c hc) (by decide)
    rw [sc_found _ (by decide) (by rw [hcapU]; exact hU0), hcapU]
  -- the document-path search captures `Q`
  have hdoc : searchCapture ("/Documents/".data) (fun c => c != '\n')
      ("https://".data ++ (T ++ ("-my.sharepoint.com".data ++ ("/personal/".data ++ (U ++ ("/Documents/".data ++ Q)))))) = some Q := by
    show searchCapture ("/Documents/".data) (fun c => c != '\n')
      ("https:".data ++ ('/' :: '/' :: (T ++ ("-my.sharepoint.com".data ++ ("/personal/".data ++ (U ++ ("/Documents/".data ++ Q))))))) = some Q
    rw [sc_append_skip rfl "https:".data _ (by decide)]
    rw [sc_cons_neg (by
      rw [show ("/Documents/".data : Str) = '/' :: 'D' :: "ocuments/".data from rfl]
      exact isPrefixOf_false_of_two _ _ _ _ _ _ (by decide))]
    rw [sc_cons_neg (by
      rw [show ("/Documents/".data : Str) = '/' :: ("Documents".data ++ ['/']) from rfl,
          isPrefixOf_cons_cons]
      simp only [beq_self_eq_true, Bool.true_and]
      show ("Documents".data ++ ['/']).isPrefixOf
        (T ++ ("-my.sharepoint.com".data ++ ('/' :: ("personal/".data ++ (U ++ ("/Documents/".data ++ Q)))))) = false
      rw [← List.append_assoc]
      exact tail_not_prefix (by decide) hTmy hne9)]
    rw [sc_append_skip rfl T _ hTslash]
    rw [sc_append_skip rfl "-my.sharepoint.com".data _ hMy]
    show searchCapture ("/Documents/".data) (fun c => c != '\n')
      ('/' :: 'p' :: ("ersonal/".data ++ (U ++ ("/Documents/".data ++ Q)))) = some Q
    rw [sc_cons_neg (by
      rw [show ("/Documents/".data : Str) = '/' :: 'D' :: "ocuments/".data from rfl]
      exact isPrefixOf_false_of_two _ _ _ _ _ _ (by decide))]
    show searchCapture ("/Documents/".data) (fun c => c != '\n')
      ("personal".data ++ ('/' :: (U ++ ("/Documents/".data ++ Q)))) = some Q
    rw [sc_append_skip rfl "personal".data _ (by decide)]
    rw [sc_cons_neg (by
      rw [show ("/Documents/".data : Str) = '/' :: ("Documents".data ++ ['/']) from rfl,
          isPrefixOf_cons_cons]
      simp only [beq_self_eq_true, Bool.true_and]
      show ("Documents".data ++ ['/']).isPrefixOf
        (U ++ ('/' :: ("Documents/".data ++ Q))) = false
      exact tail_not_prefix (by decide) hUslash hUd)]
    rw [sc_append_skip rfl U _ hUslash]
    have hcapQ : Q.takeWhile (fun c => c != '\n') = Q :=
      tw_all (fun c hc => by simpa using (hQ c hc).2)
    rw [sc_found _ (by decide) (by rw [hcapQ]; exact hQ0), hcapQ]
  unfold parse_sharepoint_url
  rw [if_neg (by simp)]
  simp only [hclean, htenant, hpers, hdoc, Option.getD_some]

/-! ## Behaviour of the scanner -/

theorem scanList_spec_aux : ∀ (n : Nat) (ls : List RNode), sizeOf ls ≤ n →
    ∀ (path : Str) (st : Counters),
    scanList ls path st = (preorderRecords ls path,
      ⟨st.total_items + vItems ls, st.files_count + vFiles ls,
        st.folders_count + vFolders ls⟩) := by
  intro n
  induction n with
  | zero =>
    intro ls h path st
    cases ls with
    | nil => simp [scanList, preorderRecords, vItems, vFiles, vFolders]
    | cons a l =>
      exfalso
      simp [List.cons.sizeOf_spec] at h
  | succ n ih =>
    intro ls h path st
    match ls with
    | [] => simp [scanList, preorderRecords, vItems, vFiles, vFolders]
    | RNode.node m isF ok ch :: rest =>
      have hsz : sizeOf ch ≤ n ∧ sizeOf rest ≤ n := by
        simp [List.cons.sizeOf_spec, RNode.node.sizeOf_spec] at h
        omega
      cases isF <;> cases ok <;>
        simp [scanList, preorderRecords, vItems, vFiles, vFolders,
          ih ch hsz.1, ih rest hsz.2, Counters.mk.injEq, Prod.mk.injEq] <;>
        omega

/-- The scanner's result: the records are exactly the pre-order sequence and
the counters each grow by the number of visited items of that kind. -/
theorem scanList_spec (ls : List RNode) (path : Str) (st : Counters) :
    scanList ls path st = (preorderRecords ls path,
      ⟨st.total_items + vItems ls, st.files_count + vFiles ls,
        st.folders_count + vFolders ls⟩) :=
  scanList_spec_aux (sizeOf ls) ls le_rfl path st

theorem preorder_length_aux : ∀ (n : Nat) (ls : List RNode), sizeOf ls ≤ n →
    ∀ path : Str, (preorderRecords ls path).length = vItems ls := by
  intro n
  induction n with
  | zero =>
    intro ls h path
    cases ls with
    | nil => simp [preorderRecords, vItems]
    | cons a l =>
      exfalso
      simp [List.cons.sizeOf_spec] at h
  | succ n ih =>
    intro ls h path
    match ls with
    | [] => simp [preorderRecords, vItems]
    | RNode.node m isF ok ch :: rest =>
      have hsz : sizeOf ch ≤ n ∧ sizeOf rest ≤ n := by
        simp [List.cons.sizeOf_spec, RNode.node.sizeOf_spec] at h
        omega
      cases isF <;> cases ok <;>
        simp [preorderRecords, vItems, ih ch hsz.1, ih rest hsz.2] <;>
        omega

/-- Length of the pre-order sequence. -/
theorem preorder_length (ls : List RNode) (path : Str) :
    (preorderRecords ls path).length = vItems ls :=
  preorder_length_aux (sizeOf ls) ls le_rfl path

theorem v_eq_count_aux : ∀ (n : Nat) (ls : List RNode), sizeOf ls ≤ n →
    allOkL ls = true →
    vItems ls = countItems ls ∧ vFiles ls = countFiles ls ∧
      vFolders ls = countFolders ls := by
  intro n
  induction n with
  | zero =>
    intro ls h _
    cases ls with
    | nil => simp [vItems, countItems, vFiles, countFiles, vFolders, countFolders]
    | cons a l =>
      exfalso
      simp [List.cons.sizeOf_spec] at h
  | succ n ih =>
    intro ls h hok
    match ls with
    | [] => simp [vItems, countItems, vFiles, countFiles, vFolders, countFolders]
    | RNode.node m isF ok ch :: rest =>
      have hsz : sizeOf ch ≤ n ∧ sizeOf rest ≤ n := by
        simp [List.cons.sizeOf_spec, RNode.node.sizeOf_spec] at h
        omega
      rw [allOkL, Bool.and_eq_true] at hok
      have hrest := ih rest hsz.2 hok.2
      cases isF with
      | false =>
        simp [vItems, countItems, vFiles, countFiles, vFolders, countFolders,
          hrest.1, hrest.2.1, hrest.2.2]
      | true =>
        have hok1 := hok.1
        rw [if_pos rfl, Bool.and_eq_true] at hok1
        have hch := ih ch hsz.1 hok1.2
        simp [vItems, countItems, vFiles, countFiles, vFolders, countFolders,
          hok1.1, hch.1, hch.2.1, hch.2.2, hrest.1, hrest.2.1, hrest.2.2]

/-- On a fully listable tree the visited counts are the tree counts. -/
theorem v_eq_count (ls : List RNode) (h : allOkL ls = true) :
    vItems ls = countItems ls ∧ vFiles ls = countFiles ls ∧
      vFolders ls = countFolders ls :=
  v_eq_count_aux (sizeOf ls) ls le_rfl h

theorem count_partition_aux : ∀ (n : Nat) (ls : List RNode), sizeOf ls ≤ n →
    countItems ls = countFiles ls + countFolders ls := by
  intro n
  induction n with
  | zero =>
    intro ls h
    cases ls with
    | nil => simp [countItems, countFiles, countFolders]
    | cons a l =>
      exfalso
      simp [List.cons.sizeOf_spec] at h
  | succ n ih =>
    intro ls h
    match ls with
    | [] => simp [countItems, countFiles, countFolders]
    | RNode.node m isF ok ch :: rest =>
      have hsz : sizeOf ch ≤ n ∧ sizeOf rest ≤ n := by
        simp [List.cons.sizeOf_spec, RNode.node.sizeOf_spec] at h
        omega
      cases isF <;>
        simp [countItems, countFiles, countFolders, ih ch hsz.1, ih rest hsz.2] <;>
        omega

/-- Total item count partitions into files plus folders. -/
theorem count_partition (ls : List RNode) :
    countItems ls = countFiles ls + countFolders ls :=
  count_partition_aux (sizeOf ls) ls le_rfl

theorem v_partition_aux : ∀ (n : Nat) (ls : List RNode), sizeOf ls ≤ n →
    vItems ls = vFiles ls + vFolders ls := by
  intro n
  induction n with
  | zero =>
    intro ls h
    cases ls with
    | nil => simp [vItems, vFiles, vFolders]
    | cons a l =>
      exfalso
      simp [List.cons.sizeOf_spec] at h
  | succ n ih =>
    intro ls h
    match ls with
    | [] => simp [vItems, vFiles, vFolders]
    | RNode.node m isF ok ch :: rest =>
      have hsz : sizeOf ch ≤ n ∧ sizeOf rest ≤ n := by
        simp [List.cons.sizeOf_spec, RNode.node.sizeOf_spec] at h
        omega
      cases isF <;> cases ok <;>
        simp [vItems, vFiles, vFolders, ih ch hsz.1, ih rest hsz.2] <;>
        omega

/-- Every visited item is either a file or a folder. -/
theorem v_partition (ls : List RNode) : vItems ls = vFiles ls + vFolders ls :=
  v_partition_aux (sizeOf ls) ls le_rfl

/-! ## The claims -/

/-- C1 counterexample: authentication fails, yet the process exit code is 0,
not the nonzero code the claim requires for an authentication failure
(`run` catches the failure on line 431 and returns `[]`, and `main` then
returns 0 on line 466). -/
theorem c1_counterexample :
    c1World.authOk = false ∧
    main_entry c1World ("https://t/sites/s".data) = 0 := by
  constructor
  · rfl
  · rfl

/-- C1 amended: a run that is not interrupted exits with code 0 whether or
not the pipeline succeeded — authentication, parsing, resolution and
unexpected failures are caught inside `run`, printed, and leave the exit
code 0; only a keyboard interrupt (or a failure outside the extractor)
yields the nonzero exit code 1, which is distinct from the success code. -/
theorem c1_exit_codes_amended :
    (∀ (w : RunWorld) (url : Str), w.interrupted = false →
      main_entry w url = 0) ∧
    (∀ (w : RunWorld) (url : Str), w.interrupted = true →
      main_entry w url = 1) ∧
    (∀ (w : RunWorld) (url : Str) (st : Counters), w.authOk = false →
      run w url st = ([], st, 0)) := by
  refine ⟨?_, ?_, ?_⟩
  · intro w url h
    simp [main_entry, h]
  · intro w url h
    simp [main_entry, h]
  · intro w url st h
    simp [run, h]

/-- C1 witness: the amended exit-code behaviour at the two concrete worlds. -/
theorem c1_witness :
    main_entry c1World ("https://x".data) = 0 ∧
    main_entry c1WorldInt ("https://x".data) = 1 ∧
    run c1World ("https://x".data) ⟨0, 0, 0⟩ = ([], ⟨0, 0, 0⟩, 0) :=
  ⟨c1_exit_codes_amended.1 c1World ("https://x".data) rfl,
   c1_exit_codes_amended.2.1 c1WorldInt ("https://x".data) rfl,
   c1_exit_codes_amended.2.2 c1World ("https://x".data) ⟨0, 0, 0⟩ rfl⟩

/-- C2: for a remote tree with `countItems ch` items of which `countFiles ch`
are files and `countFolders ch` folders, a full scan (every listing succeeds)
from a freshly constructed extractor returns exactly that many records, after
which `files_count + folders_count = total_items = countItems ch`; moreover
`total_items = files_count + folders_count` is preserved by every scan from
any state satisfying it. -/
theorem c2_full_scan_counts (m : Meta) (isF : Bool) (ch : List RNode)
    (path : Str) (hok : allOkL ch = true) :
    (scan_folder_contents (RNode.node m isF true ch) path ⟨0, 0, 0⟩).1.length
        = countItems ch ∧
    (scan_folder_contents (RNode.node m isF true ch) path ⟨0, 0, 0⟩).2.total_items
        = countItems ch ∧
    (scan_folder_contents (RNode.node m isF true ch) path ⟨0, 0, 0⟩).2.files_count
        = countFiles ch ∧
    (scan_folder_contents (RNode.node m isF true ch) path ⟨0, 0, 0⟩).2.folders_count
        = countFolders ch ∧
    countItems ch = countFiles ch + countFolders ch ∧
    (∀ (ls : List RNode) (p : Str) (st : Counters),
      st.total_items = st.files_count + st.folders_count →
      (scanList ls p st).2.total_items
        = (scanList ls p st).2.files_count + (scanList ls p st).2.folders_count) := by
  obtain ⟨h1, h2, h3⟩ := v_eq_count ch hok
  refine ⟨?_, ?_, ?_, ?_, count_partition ch, ?_⟩
  · simp [scan_folder_contents, scanList_spec, preorder_length, h1]
  · simp [scan_folder_contents, scanList_spec, h1]
  · simp [scan_folder_contents, scanList_spec, h2]
  · simp [scan_folder_contents, scanList_spec, h3]
  · intro ls p st hst
    have hv := v_partition ls
    simp [scanList_spec]
    omega

/-- C2 witness: a concrete fully-listable tree with three items, one file at
the root and a folder containing one file. -/
theorem c2_witness :
    (scan_folder_contents
        (RNode.node ⟨"Archive".data, "0".data, none, none, none, none, none⟩ true true
          [RNode.node ⟨"a.txt".data, "1".data, none, none, none, none, some 100⟩ false true [],
           RNode.node ⟨"Sub".data, "2".data, none, none, none, none, none⟩ true true
             [RNode.node ⟨"b.txt".data, "3".data, none, none, none, none, some 200⟩ false true []]])
        ("Archive".data) ⟨0, 0, 0⟩).1.length
      = countItems
          [RNode.node ⟨"a.txt".data, "1".data, none, none, none, none, some 100⟩ false true [],
           RNode.node ⟨"Sub".data, "2".data, none, none, none, none, none⟩ true true
             [RNode.node ⟨"b.txt".data, "3".data, none, none, none, none, some 200⟩ false true []]] ∧
    countItems
        [RNode.node ⟨"a.txt".data, "1".data, none, none, none, none, some 100⟩ false true [],
         RNode.node ⟨"Sub".data, "2".data, none, none, none, none, none⟩ true true
           [RNode.node ⟨"b.txt".data, "3".data, none, none, none, none, some 200⟩ false true []]]
      = countFiles
          [RNode.node ⟨"a.txt".data, "1".data, none, none, none, none, some 100⟩ false true [],
           RNode.node ⟨"Sub".data, "2".data, none, none, none, none, none⟩ true true
             [RNode.node ⟨"b.txt".data, "3".data, none, none, none, none, some 200⟩ false true []]]
        + countFolders
          [RNode.node ⟨"a.txt".data, "1".data, none, none, none, none, some 100⟩ false true [],
           RNode.node ⟨"Sub".data, "2".data, none, none, none, none, none⟩ true true
             [RNode.node ⟨"b.txt".data, "3".data, none, none, none, none, some 200⟩ false true []]] := by
  have h := c2_full_scan_counts
    ⟨"Archive".data, "0".data, none, none, none, none, none⟩ true
    [RNode.node ⟨"a.txt".data, "1".data, none, none, none, none, some 100⟩ false true [],
     RNode.node ⟨"Sub".data, "2".data, none, none, none, none, none⟩ true true
       [RNode.node ⟨"b.txt".data, "3".data, none, none, none, none, some 200⟩ false true []]]
    ("Archive".data) (by simp [allOkL])
  exact ⟨h.1, h.2.2.2.2.1⟩

/-- C3 counterexample: the team-site URL
`https://contoso.sharepoint.com/sites/team/Documents/personal/notes` is of
the claimed form `https://{tenant}/sites/{site}/Documents/{path...}`, yet
the parser classifies it as a personal site (the `/personal/` search runs
over the whole URL) and returns site path `/personal/notes` instead of
`/sites/team`. -/
theorem c3_counterexample :
    (parse_sharepoint_url
        ("https://contoso.sharepoint.com/sites/team/Documents/personal/notes".data)).is_personal_site
      = true ∧
    (parse_sharepoint_url
        ("https://contoso.sharepoint.com/sites/team/Documents/personal/notes".data)).site_path
      = "/personal/notes".data := by
  constructor
  · decide
  · decide

/-- C3 amended: the claimed extraction holds for URLs of the two forms once
the components are well-formed for the source's whole-URL substring
searches: tenant and site segments are nonempty, free of `/` and `?`, and
not themselves the reserved words `sites`/`Documents` the searches look for;
the document path is free of `?` and newlines, nonempty, does not end in a
slash (the cleaning step strips trailing slashes), and — for the team form —
the URL contains no `/personal/` substring (otherwise the parser classifies
it as a personal site, see the counterexample); the personal-form user
segment is nonempty, slash- and `?`-free and not `Documents`. -/
theorem c3_url_parsing_amended (T S P T2 U Q : Str)
    (hT0 : T ≠ []) (hT : ∀ c ∈ T, c ≠ '/' ∧ c ≠ '?')
    (hTs : T ≠ "sites".data) (hTd : T ≠ "Documents".data)
    (hS0 : S ≠ []) (hS : ∀ c ∈ S, c ≠ '/' ∧ c ≠ '?')
    (hSd : S ≠ "Documents".data)
    (hP0 : P ≠ []) (hP : ∀ c ∈ P, c ≠ '?' ∧ c ≠ '\n')
    (hPlast : P.getLast? ≠ some '/')
    (hNoPers : containsSub ("/personal/".data)
      ("https://".data ++ (T ++ ("/sites/".data ++ (S ++ ("/Documents/".data ++ P))))) = false)
    (hT2 : ∀ c ∈ T2, c ≠ '/' ∧ c ≠ '?')
    (hU0 : U ≠ []) (hU : ∀ c ∈ U, c ≠ '/' ∧ c ≠ '?')
    (hUd : U ≠ "Documents".data)
    (hQ0 : Q ≠ []) (hQ : ∀ c ∈ Q, c ≠ '?' ∧ c ≠ '\n')
    (hQlast : Q.getLast? ≠ some '/') :
    parse_sharepoint_url
        ("https://".data ++ (T ++ ("/sites/".data ++ (S ++ ("/Documents/".data ++ P)))))
      = ⟨T, "/sites/".data ++ S, unquote P, false⟩ ∧
    parse_sharepoint_url
        ("https://".data ++ (T2 ++ ("-my.sharepoint.com".data ++ ("/personal/".data ++ (U ++ ("/Documents/".data ++ Q))))))
      = ⟨T2 ++ "-my.sharepoint.com".data, "/personal/".data ++ U, unquote Q, true⟩ :=
  ⟨parse_team_url T S P hT0 hT hTs hTd hS0 hS hSd hP0 hP hPlast hNoPers,
   parse_personal_url T2 U Q hT2 hU0 hU hUd hQ0 hQ hQlast⟩

/-- C3 witness: the amended parsing statement at the concrete URLs
`https://contoso.sharepoint.com/sites/myteam/Documents/Archive/Q1%20Reports`
and `https://contoso-my.sharepoint.com/personal/user_contoso_com/Documents/Projects`. -/
theorem c3_witness :
    parse_sharepoint_url
        ("https://".data ++ ("contoso.sharepoint.com".data ++ ("/sites/".data ++ ("myteam".data ++ ("/Documents/".data ++ "Archive/Q1%20Reports".data)))))
      = ⟨"contoso.sharepoint.com".data, "/sites/".data ++ "myteam".data,
          unquote ("Archive/Q1%20Reports".data), false⟩ ∧
    parse_sharepoint_url
        ("https://".data ++ ("contoso".data ++ ("-my.sharepoint.com".data ++ ("/personal/".data ++ ("user_contoso_com".data ++ ("/Documents/".data ++ "Projects".data))))))
      = ⟨"contoso".data ++ "-my.sharepoint.com".data,
          "/personal/".data ++ "user_contoso_com".data,
          unquote ("Projects".data), true⟩ :=
  c3_url_parsing_amended
    ("contoso.sharepoint.com".data) ("myteam".data) ("Archive/Q1%20Reports".data)
    ("contoso".data) ("user_contoso_com".data) ("Projects".data)
    (by decide) (by decide) (by decide) (by decide)
    (by decide) (by decide) (by decide)
    (by decide) (by decide) (by decide)
    (by decide)
    (by decide)
    (by decide) (by decide) (by decide)
    (by decide) (by decide) (by decide)

/-- C4: with an empty sub-path the target is the root folder, independent of
the remote world (no lookup is consulted); otherwise the two direct path
templates are tried in order and only if both fail does the segment
navigation run; a navigation segment matches children case-insensitively and
only folders; a missing segment fails carrying the folder names available at
that level; a folder differing from the segment only in letter case still
matches. -/
theorem c4_folder_lookup :
    (∀ w : NavWorld, find_target_folder w [] = some ("root".data)) ∧
    (∀ w w' : NavWorld, find_target_folder w [] = find_target_folder w' []) ∧
    (∀ (w : NavWorld) (path i : Str), path ≠ [] →
      w.direct ("root:/".data ++ path ++ ":".data) = some i →
      find_target_folder w path = some i) ∧
    (∀ (w : NavWorld) (path i : Str), path ≠ [] →
      w.direct ("root:/".data ++ path ++ ":".data) = none →
      w.direct ("root:/Documents/".data ++ path ++ ":".data) = some i →
      find_target_folder w path = some i) ∧
    (∀ (w : NavWorld) (path : Str), path ≠ [] →
      w.direct ("root:/".data ++ path ++ ":".data) = none →
      w.direct ("root:/Documents/".data ++ path ++ ":".data) = none →
      find_target_folder w path
        = (navigate_path_segments w ("root".data) path).toOption) ∧
    (∀ (w : NavWorld) (seg : Str) (rest : List Str) (cur : Str)
        (cs : List ChildEntry) (c : ChildEntry),
      w.listChildren cur = some cs → cs.find? (segMatch seg) = some c →
      navLoop w (seg :: rest) cur = navLoop w rest c.id) ∧
    (∀ (w : NavWorld) (seg : Str) (rest : List Str) (cur : Str)
        (cs : List ChildEntry),
      w.listChildren cur = some cs → cs.find? (segMatch seg) = none →
      navLoop w (seg :: rest) cur
        = .error (.notFound seg (availableFolders cs))) ∧
    (∀ (seg : Str) (c : ChildEntry), c.isFolder = true →
      lowerStr c.name = lowerStr seg → segMatch seg c = true) := by
  have hemp : ∀ path : Str, path ≠ [] → path.isEmpty = false := by
    intro path h
    cases path with
    | nil => exact absurd rfl h
    | cons a l => rfl
  refine ⟨?_, ?_, ?_, ?_, ?_, ?_, ?_, ?_⟩
  · intro w
    rfl
  · intro w w'
    rfl
  · intro w path i h h1
    unfold find_target_folder
    rw [hemp path h]
    simp only [Bool.false_eq_true, if_false]
    rw [h1]
  · intro w path i h h1 h2
    unfold find_target_folder
    rw [hemp path h]
    simp only [Bool.false_eq_true, if_false]
    rw [h1, h2]
  · intro w path h h1 h2
    unfold find_target_folder
    rw [hemp path h]
    simp only [Bool.false_eq_true, if_false]
    rw [h1, h2]
  · intro w seg rest cur cs c h1 h2
    simp [navLoop, h1, h2]
  · intro w seg rest cur cs h1 h2
    simp [navLoop, h1, h2]
  · intro seg c hf hl
    simp [segMatch, hf, hl]

/-- C4 witness: on `c4World`, the empty path yields the root id directly; a
nonempty path falls through both direct templates to segment navigation; the
lower-case segment `reports` still finds the folder `Reports`; an unknown
segment fails reporting the (empty) folder list of that level. -/
theorem c4_witness :
    find_target_folder c4World [] = some ("root".data) ∧
    find_target_folder c4World ("reports".data)
      = (navigate_path_segments c4World ("root".data) ("reports".data)).toOption ∧
    navLoop c4World ["reports".data] ("root".data)
      = navLoop c4World [] ("idR".data) ∧
    navLoop c4World ["x".data] ("idR".data)
      = .error (.notFound ("x".data) (availableFolders [])) ∧
    segMatch ("reports".data) ⟨"Reports".data, "idR".data, true⟩ = true := by
  refine ⟨c4_folder_lookup.1 c4World,
    c4_folder_lookup.2.2.2.2.1 c4World ("reports".data) (by decide) rfl rfl,
    c4_folder_lookup.2.2.2.2.2.1 c4World ("reports".data) [] ("root".data)
      [⟨"Reports".data, "idR".data, true⟩] ⟨"Reports".data, "idR".data, true⟩
      (by decide) (by decide),
    c4_folder_lookup.2.2.2.2.2.2.1 c4World ("x".data) [] ("idR".data) []
      (by decide) rfl,
    c4_folder_lookup.2.2.2.2.2.2.2 ("reports".data)
      ⟨"Reports".data, "idR".data, true⟩ rfl (by decide)⟩

/-- C5: the scanner's output sequence is exactly the depth-first pre-order
flattening of the listed tree, both for the sibling loop and for a scan
started at a folder. -/
theorem c5_preorder_output :
    (∀ (ls : List RNode) (path : Str) (st : Counters),
      (scanList ls path st).1 = preorderRecords ls path) ∧
    (∀ (m : Meta) (isF : Bool) (ch : List RNode) (path : Str) (st : Counters),
      (scan_folder_contents (RNode.node m isF true ch) path st).1
        = preorderRecords ch path) := by
  constructor
  · intro ls path st
    rw [scanList_spec]
  · intro m isF ch path st
    simp [scan_folder_contents, scanList_spec]

/-- C6: an empty item list writes no file whatever the write outcome; a
failed write produces no file either; and with a failing export the run
still returns the scanned records in memory. -/
theorem c6_export_not_fatal :
    (∀ ok : Bool, export_to_csv [] ok = none) ∧
    (∀ items : List ItemRecord, export_to_csv items false = none) ∧
    (∀ (w : RunWorld) (url : Str) (st : Counters) (sid did fid : Str),
      w.authOk = true →
      (parse_sharepoint_url url).tenant_domain ≠ [] →
      w.findSiteR (parse_sharepoint_url url).tenant_domain
          (parse_sharepoint_url url).site_path = some sid →
      w.getDriveR sid = some did →
      find_target_folder w.nav (parse_sharepoint_url url).document_path = some fid →
      w.exportOk = false →
      (run w url st).1
        = (scan_folder_contents (w.itemOf fid)
            (parse_sharepoint_url url).document_path st).1) := by
  refine ⟨?_, ?_, ?_⟩
  · intro ok
    rfl
  · intro items
    cases items <;> simp [export_to_csv]
  · intro w url st sid did fid hauth htenant hsite hdrive hfolder _hexp
    have hne : (parse_sharepoint_url url).tenant_domain.isEmpty = false := by
      cases hd : (parse_sharepoint_url url).tenant_domain with
      | nil => exact absurd hd htenant
      | cons a l => rfl
    simp [run, hauth, hne, hsite, hdrive, hfolder]

/-- C6 witness: on `c6World` and a team-site URL without a document path the
run returns exactly the scanner's records although the export fails, and the
empty list exports nothing. -/
theorem c6_witness :
    export_to_csv [] true = none ∧
    (run c6World ("https://t/sites/s".data) ⟨0, 0, 0⟩).1
      = (scan_folder_contents (c6World.itemOf ("root".data))
          (parse_sharepoint_url ("https://t/sites/s".data)).document_path
          ⟨0, 0, 0⟩).1 :=
  ⟨c6_export_not_fatal.1 true,
   c6_export_not_fatal.2.2 c6World ("https://t/sites/s".data) ⟨0, 0, 0⟩
     ("sid".data) ("did".data) ("root".data) rfl (by decide) rfl rfl
     (by decide) rfl⟩

/-- C7: an empty URL parses to the all-empty reference, and `run` on the
empty URL returns no items, leaves the counters untouched and makes zero
Graph requests, whatever the remote world looks like. -/
theorem c7_empty_url_halts :
    parse_sharepoint_url [] = ⟨[], [], [], false⟩ ∧
    ∀ (w : RunWorld) (st : Counters), run w [] st = ([], st, 0) := by
  constructor
  · rfl
  · intro w st
    cases hA : w.authOk <;> simp [run, hA, parse_sharepoint_url]

/-- C8: a folder whose children listing fails (or yields no items)
contributes an empty record list at that level without failing, and the
traversal continues with the next sibling after recording the folder
itself. -/
theorem c8_listing_failure_not_fatal :
    (∀ (m : Meta) (isF : Bool) (ch : List RNode) (path : Str) (st : Counters),
      scan_folder_contents (RNode.node m isF false ch) path st = ([], st)) ∧
    (∀ (m : Meta) (isF : Bool) (path : Str) (st : Counters),
      scan_folder_contents (RNode.node m isF true []) path st = ([], st)) ∧
    (∀ (m : Meta) (ch rest : List RNode) (path : Str) (st : Counters),
      scanList (RNode.node m true false ch :: rest) path st =
        (mkRecord m true (if path.isEmpty then m.name else path ++ '/' :: m.name) ::
            (scanList rest path
              ⟨st.total_items + 1, st.files_count, st.folders_count + 1⟩).1,
          (scanList rest path
              ⟨st.total_items + 1, st.files_count, st.folders_count + 1⟩).2)) := by
  refine ⟨?_, ?_, ?_⟩
  · intro m isF ch path st
    simp [scan_folder_contents]
  · intro m isF path st
    cases hs : scanList ([] : List RNode) path st with
    | mk a b => simp [scan_folder_contents, scanList] at hs ⊢
  · intro m ch rest path st
    simp [scanList]

/-- C9: the `Size_KB` field is the byte size divided by 1024 and rounded to
two decimal places when the size is present and nonzero, and exactly 0 when
the size key is absent or its value is the falsy 0. -/
theorem c9_size_kb (m : Meta) (isF : Bool) (path : Str) :
    (∀ s : Nat, m.size = some s → s ≠ 0 →
      (mkRecord m isF path).Size_KB = round2 ((s : ℚ) / 1024)) ∧
    ((m.size = none ∨ m.size = some 0) → (mkRecord m isF path).Size_KB = 0) := by
  constructor
  · intro s hs hs0
    simp [mkRecord, size_kb, hs, hs0]
  · rintro (h | h) <;> simp [mkRecord, size_kb, h]

/-- C9 witness: a 1536-byte file rounds to `round2 (3/2)` kilobytes and an
absent size yields 0. -/
theorem c9_witness :
    (mkRecord ⟨"f".data, "1".data, none, none, none, none, some 1536⟩ false []).Size_KB
      = round2 ((1536 : ℚ) / 1024) ∧
    (mkRecord ⟨"g".data, "2".data, none, none, none, none, none⟩ false []).Size_KB = 0 :=
  ⟨(c9_size_kb ⟨"f".data, "1".data, none, none, none, none, some 1536⟩ false []).1
      1536 rfl (by decide),
   (c9_size_kb ⟨"g".data, "2".data, none, none, none, none, none⟩ false []).2 (Or.inl rfl)⟩

/-- C10: no scan ever decreases the counters, and a second scan on the same
instance accumulates on top of the first: the final counters equal the sum
of both scans' own counts, not the second scan's alone. -/
theorem c10_counters_accumulate :
    (∀ (ls : List RNode) (p : Str) (st : Counters),
      st.total_items ≤ (scanList ls p st).2.total_items ∧
      st.files_count ≤ (scanList ls p st).2.files_count ∧
      st.folders_count ≤ (scanList ls p st).2.folders_count) ∧
    (∀ (r1 r2 : RNode) (p1 p2 : Str),
      (scan_folder_contents r2 p2 (scan_folder_contents r1 p1 ⟨0, 0, 0⟩).2).2.total_items
        = (scan_folder_contents r1 p1 ⟨0, 0, 0⟩).2.total_items
          + (scan_folder_contents r2 p2 ⟨0, 0, 0⟩).2.total_items ∧
      (scan_folder_contents r2 p2 (scan_folder_contents r1 p1 ⟨0, 0, 0⟩).2).2.files_count
        = (scan_folder_contents r1 p1 ⟨0, 0, 0⟩).2.files_count
          + (scan_folder_contents r2 p2 ⟨0, 0, 0⟩).2.files_count ∧
      (scan_folder_contents r2 p2 (scan_folder_contents r1 p1 ⟨0, 0, 0⟩).2).2.folders_count
        = (scan_folder_contents r1 p1 ⟨0, 0, 0⟩).2.folders_count
          + (scan_folder_contents r2 p2 ⟨0, 0, 0⟩).2.folders_count) := by
  constructor
  · intro ls p st
    simp [scanList_spec]
  · intro r1 r2 p1 p2
    cases r1 with
    | node m1 f1 ok1 ch1 =>
      cases r2 with
      | node m2 f2 ok2 ch2 =>
        cases ok1 <;> cases ok2 <;>
          simp [scan_folder_contents, scanList_spec]
